import Mathlib

/-!
Verification of the inbound email ingestion worker
(`src/services/emailListener.js`, class `EmailListenerService`).

The JavaScript source is shallowly embedded: methods become pure Lean
functions over explicit state, JS `Set` objects become `List String`
with set-flavoured insertion, the Prisma store and the mail message are
explicit parameters, and `null`-returning helpers return `Option`.
-/

namespace EmailListener

/-! ## JS string primitives

`String.prototype.toLowerCase` and `String.prototype.trim` as used by the
worker (ASCII data), embedded as structurally recursive list operations. -/

/-- JS `s.toLowerCase()` on the character data of `s`. -/
def jsToLower (s : String) : String :=
  ⟨s.data.map Char.toLower⟩

/-- JS `s.trim()`: strip leading and trailing whitespace. -/
def jsTrim (s : String) : String :=
  ⟨((s.data.dropWhile Char.isWhitespace).reverse.dropWhile Char.isWhitespace).reverse⟩

/-- The canonical form the worker produces: `x.toLowerCase().trim()`. -/
def canonicalize (s : String) : String :=
  jsTrim (jsToLower s)

/-! ## The raw address field

`mail.from` / `mail.to` as delivered by mail-listener2: absent/falsy,
a plain string, an object with an `address` property, an array of such
values, or some other value. -/

/-- Shapes of the raw address field seen by `extractEmailAddress`. -/
inductive EmailData where
  /-- JS falsy field: `null`, `undefined` (also covers falsy primitives). -/
  | nullData : EmailData
  /-- a plain string field -/
  | strData (s : String) : EmailData
  /-- an object; `some a` when its `address` property is the string `a`,
      `none` when the property is missing or `undefined` -/
  | objData (address : Option String) : EmailData
  /-- an object whose `address` property is truthy but not a string
      (`.toLowerCase()` on it throws; the catch returns `null`) -/
  | objBadData : EmailData
  /-- an array field -/
  | arrData (items : List EmailData) : EmailData
  /-- a truthy value that is neither string, object nor array -/
  | otherData : EmailData

/-! ## Regex `/<(.+)>/`

`parseEmailString` matches the string against `/<(.+)>/`: leftmost match,
greedy group, `.` matching any character except a newline. -/

/-- Characters strictly before the last `>` of the list, if any `>` occurs. -/
def dropAfterLastGt (cs : List Char) : Option (List Char) :=
  match cs.reverse.dropWhile (fun c => c ≠ '>') with
  | [] => none
  | _ :: pre => some pre.reverse

/-- Attempt of `<(.+)>` whose opening `<` was just consumed: the group is
the run up to the last `>` reachable without crossing a newline, and must
be non-empty. -/
def angleGroupAt (cs : List Char) : Option (List Char) :=
  match dropAfterLastGt (cs.takeWhile (fun c => c ≠ '\n')) with
  | some g => if g.isEmpty then none else some g
  | none => none

/-- Leftmost match of `/<(.+)>/`: scan for a `<` where the attempt
succeeds, otherwise keep scanning. -/
def findAngleGroup : List Char → Option (List Char)
  | [] => none
  | c :: rest =>
    if c = '<' then
      match angleGroupAt rest with
      | some g => some g
      | none => findAngleGroup rest
    else
      findAngleGroup rest

/-- `parseEmailString(emailString)`: `null` on a falsy string; the
bracketed portion of a `"Name <email>"` string, lowercased and trimmed;
otherwise the whole string lowercased and trimmed. -/
def parseEmailString (emailString : String) : Option String :=
  if emailString = "" then
    none
  else
    match findAngleGroup emailString.data with
    | some g => some (canonicalize ⟨g⟩)
    | none => some (canonicalize emailString)

/-- `extractEmailAddress(emailData)`: `null` for a falsy field; for an
array, only the first element is examined (object with a truthy `address`
string, or a string); a string goes through `parseEmailString`; an object
with a truthy `address` string is lowercased and trimmed; everything else
(including the paths where a thrown error is caught) yields `null`. -/
def extractEmailAddress : EmailData → Option String
  | .nullData => none
  | .arrData [] => none
  | .arrData (first :: _) =>
    match first with
    | .objData (some a) => if a = "" then none else some (canonicalize a)
    | .strData s => parseEmailString s
    | _ => none
  | .strData s => parseEmailString s
  | .objData (some a) => if a = "" then none else some (canonicalize a)
  | .objData none => none
  | .objBadData => none
  | .otherData => none

example : extractEmailAddress (.strData "Jane <JANE@Example.com>") = some "jane@example.com" := by decide
example : extractEmailAddress (.strData "  Bob@X.COM ") = some "bob@x.com" := by decide
example : extractEmailAddress (.arrData [.objData (some "A@B.c"), .strData "z"]) = some "a@b.c" := by decide
example : extractEmailAddress (.arrData []) = none := by decide
example : extractEmailAddress .nullData = none := by decide
example : extractEmailAddress (.strData "a<>b<c>") = some ">b<c" := by decide

/-! ## Store, message and worker state

The Prisma queries `handleNewEmail` performs are modelled as pure lookup
functions carried in a `Store`; the JS `Set` caches become `List String`
with set-flavoured insertion. -/

/-- A user row; only the fields the ingestion pipeline reads. -/
structure User where
  id : Nat
  email : String
  deriving DecidableEq, Repr

/-- An incoming mail object; only the fields the pipeline reads. -/
structure Mail where
  messageId : Option String
  fromField : EmailData
  toField : EmailData
  subject : Option String

/-- The external store, as the pipeline queries it:
`userByEmail` is `prisma.user.findUnique({ where: { email } })`,
`staffByEmail` is the ADMIN/STAFF `findFirst` underlying `findSystemUser`
(keyed by the already-lowercased email it receives), and
`defaultAdmin` is the result of `ensureDefaultAdmin()` (`none` models its
caught-error `null`). -/
structure Store where
  userByEmail : String → Option User
  staffByEmail : String → Option User
  defaultAdmin : Option User

/-- JS `Set.prototype.has` on the `List String` model. -/
def setHas (s : List String) (x : String) : Bool :=
  s.contains x

/-- JS `Set.prototype.add` on the `List String` model. -/
def setAdd (s : List String) (x : String) : List String :=
  if s.contains x then s else s ++ [x]

/-- JS truthiness of `mail.messageId` (`null`/`undefined`/`""` are falsy). -/
def midTruthy : Option String → Bool
  | none => false
  | some m => m ≠ ""

/-- `findSystemUser(email)`: staff/admin lookup at `email.toLowerCase()`.
The query itself is the store's `staffByEmail`. -/
def findSystemUser (store : Store) (email : String) : Option User :=
  store.staffByEmail (jsToLower email)

/-- The persisted email record, restricted to the fields the claims
mention (sender, recipient, protocol message id, subject). -/
structure EmailRecord where
  senderId : Nat
  recipientId : Nat
  messageId : Option String
  subject : String
  deriving DecidableEq, Repr

/-- `mail.subject || '(No Subject)'`. -/
def subjectOrDefault (subject : Option String) : String :=
  match subject with
  | some s => if s = "" then "(No Subject)" else s
  | none => "(No Subject)"

/-- `saveIncomingEmail(mail, sender, recipient)`: the `prisma.email.create`
record. The accompanying `prisma.user.update` and `createActivity` calls
are counted by the pipeline result. -/
def saveIncomingEmail (mail : Mail) (sender recipient : User) : EmailRecord :=
  { senderId := sender.id
    recipientId := recipient.id
    messageId := mail.messageId
    subject := subjectOrDefault mail.subject }

/-- Observable outcome of one `handleNewEmail` call: the dedup set
afterwards, the email records persisted, and the number of audit
(activity-log) events emitted. -/
structure PipelineResult where
  processed : List String
  records : List EmailRecord
  audits : Nat
  deriving DecidableEq, Repr

/-- `handleNewEmail(mail)` over explicit state: `userEmails` is the
directory cache, `processed` the dedup set. Mirrors the source's early
returns: dedup skip, sender-extraction failure, non-user sender,
sender row missing, recipient-extraction failure; then either the
fallback-admin branch (which returns before the dedup record) or the
normal branch (which records a truthy message id after saving). -/
def handleNewEmail (userEmails processed : List String) (store : Store)
    (mail : Mail) : PipelineResult :=
  if midTruthy mail.messageId ∧ setHas processed (mail.messageId.getD "") then
    -- Skip if already processed
    ⟨processed, [], 0⟩
  else
    match extractEmailAddress mail.fromField with
    | none => ⟨processed, [], 0⟩
    | some senderEmail =>
      if ¬ setHas userEmails (jsToLower senderEmail) then
        -- Email from non-user: skipping
        ⟨processed, [], 0⟩
      else
        match store.userByEmail senderEmail with
        | none => ⟨processed, [], 0⟩
        | some sender =>
          match extractEmailAddress mail.toField with
          | none => ⟨processed, [], 0⟩
          | some recipientEmail =>
            match findSystemUser store recipientEmail with
            | none =>
              -- unknown system user: fall back to the default admin and return
              match store.defaultAdmin with
              | some defaultAdmin =>
                ⟨processed, [saveIncomingEmail mail sender defaultAdmin], 1⟩
              | none => ⟨processed, [], 0⟩
            | some recipient =>
              -- save, then mark a truthy message id as processed
              let rec1 := saveIncomingEmail mail sender recipient
              if midTruthy mail.messageId then
                ⟨setAdd processed (mail.messageId.getD ""), [rec1], 1⟩
              else
                ⟨processed, [rec1], 1⟩

/-- `loadUserEmails()`: replaces the cache with the lowercased emails
returned by the CLIENT-role query; a thrown query (`none`) is caught and
leaves the cache untouched. -/
def loadUserEmails (current : List String) (queryResult : Option (List String)) :
    List String :=
  match queryResult with
  | some users => users.map jsToLower
  | none => current

/-! ## Worker lifecycle and the reconnect supervisor

`start` / `stop` / `handleReconnect` and the `server:connected`,
`server:disconnected`, `error` and timer-expiry events, as a step
function over an explicit worker state. Connections are counted:
`currentOpen` is the listener currently referenced by `this.mailListener`,
`leakedOpen` counts listeners that were replaced by a later `start()`
without ever being stopped. -/

/-- Worker lifecycle state: the fields of `EmailListenerService` the
reconnect logic reads and writes, plus connection accounting. -/
structure WorkerState where
  isRunning : Bool
  reconnectAttempts : Nat
  maxReconnectAttempts : Nat
  /-- reconnect `setTimeout` callbacks scheduled and not yet fired -/
  pendingTimers : Nat
  /-- `this.mailListener !== null` -/
  hasListener : Bool
  /-- the currently referenced listener has been started and not stopped -/
  currentOpen : Bool
  /-- listeners replaced by a later `start()` while still open -/
  leakedOpen : Nat
  deriving DecidableEq, Repr

/-- Constructor state: not running, zero attempts, max 5, no listener. -/
def initialWorker : WorkerState :=
  { isRunning := false
    reconnectAttempts := 0
    maxReconnectAttempts := 5
    pendingTimers := 0
    hasListener := false
    currentOpen := false
    leakedOpen := 0 }

/-- Number of mailbox connections currently open. -/
def WorkerState.openConnections (s : WorkerState) : Nat :=
  s.leakedOpen + (if s.currentOpen then 1 else 0)

/-- `handleReconnect()`: below the maximum it increments the attempt
counter and schedules a retry timer; at or above the maximum it returns
without scheduling anything. -/
def handleReconnect (s : WorkerState) : WorkerState :=
  if s.reconnectAttempts ≥ s.maxReconnectAttempts then
    s
  else
    { s with reconnectAttempts := s.reconnectAttempts + 1
             pendingTimers := s.pendingTimers + 1 }

/-- `start()`: unconditionally builds a fresh `MailListener`, assigns it
over the previous reference, and starts it. There is no `isRunning`
guard; a previously open listener is left open and becomes unreachable. -/
def startService (s : WorkerState) : WorkerState :=
  { s with hasListener := true
           currentOpen := true
           leakedOpen := s.leakedOpen + (if s.currentOpen then 1 else 0) }

/-- `stop()`: when a listener exists, stop it and clear the running flag.
No timer is touched. -/
def stopService (s : WorkerState) : WorkerState :=
  if s.hasListener then
    { s with isRunning := false, currentOpen := false }
  else
    s

/-- External events driving the worker. -/
inductive Event where
  /-- an explicit `start()` call -/
  | startCall : Event
  /-- the `server:connected` event -/
  | connected : Event
  /-- the `server:disconnected` event -/
  | disconnected : Event
  /-- the `error` event -/
  | errorEvent : Event
  /-- an explicit `stop()` call -/
  | stopCall : Event
  /-- a scheduled reconnect timer expires -/
  | timerFire : Event
  deriving DecidableEq, Repr

/-- One step of the worker: the source's event handlers.
`server:connected` sets the running flag and resets the counter;
`server:disconnected` clears the flag and runs `handleReconnect`;
`error` runs `handleReconnect` only when not running and below the
maximum; a fired timer calls `start()` when not running. -/
def step (s : WorkerState) : Event → WorkerState
  | .startCall => startService s
  | .connected => { s with isRunning := true, reconnectAttempts := 0 }
  | .disconnected => handleReconnect { s with isRunning := false }
  | .errorEvent =>
    if ¬ s.isRunning ∧ s.reconnectAttempts < s.maxReconnectAttempts then
      handleReconnect s
    else
      s
  | .stopCall => stopService s
  | .timerFire =>
    if 0 < s.pendingTimers then
      let s1 := { s with pendingTimers := s.pendingTimers - 1 }
      if ¬ s1.isRunning then startService s1 else s1
    else
      s

/-- Run a sequence of events from a state. -/
def runTrace (s : WorkerState) (events : List Event) : WorkerState :=
  events.foldl step s

/-! ## Concrete fixtures used to evaluate the model -/

/-- A CLIENT account present in the directory cache. -/
def aliceUser : User :=
  { id := 1, email := "alice@co.com" }

/-- The admin account `ensureDefaultAdmin()` resolves to. -/
def adminUser : User :=
  { id := 9, email := "admin@healthcarebizbrokers.com" }

/-- A store in which `alice@co.com` is a known user, no ADMIN/STAFF row
matches any recipient address, and a default admin exists — the
fallback-admin branch of `handleNewEmail`. -/
def fallbackStore : Store :=
  { userByEmail := fun e => if e = "alice@co.com" then some aliceUser else none
    staffByEmail := fun _ => none
    defaultAdmin := some adminUser }

/-- A message with a message id whose recipient resolves to no system
user, so it is saved against the fallback admin. -/
def fallbackMail : Mail :=
  { messageId := some "m1"
    fromField := .strData "alice@co.com"
    toField := .strData "ops@co.com"
    subject := some "Hi" }

/-- Directory cache holding exactly Alice. -/
def aliceCache : List String :=
  ["alice@co.com"]

/-- A store with no users at all. -/
def emptyStore : Store :=
  { userByEmail := fun _ => none
    staffByEmail := fun _ => none
    defaultAdmin := none }

/-- A message from an address that is in no cache. -/
def spamMail : Mail :=
  { messageId := some "spam-1"
    fromField := .strData "spam@unknown.com"
    toField := .strData "ops@co.com"
    subject := some "Buy now" }

/-- A message with no message id at all. -/
def noIdMail : Mail :=
  { messageId := none
    fromField := .strData "alice@co.com"
    toField := .strData "ops@co.com"
    subject := some "Hello" }

/-- A message whose sender field is absent altogether. -/
def noSenderMail : Mail :=
  { messageId := none
    fromField := .nullData
    toField := .nullData
    subject := none }

/-- Connect, observe a disconnect while a reconnect timer is pending,
then deliberately stop. -/
def stopWithPendingTimerTrace : List Event :=
  [.startCall, .connected, .disconnected, .stopCall]

/-- Start and connect, then call `start()` a second time while running. -/
def doubleStartTrace : List Event :=
  [.startCall, .connected, .startCall]

/-- Exactly five consecutive connection failures from a fresh worker,
each retry timer firing before the next failure. -/
def fiveFailuresTrace : List Event :=
  [.startCall, .disconnected, .timerFire, .disconnected, .timerFire,
   .disconnected, .timerFire, .disconnected, .timerFire, .disconnected]

/-- The five-failure trace followed by the fifth retry and its failure:
six consecutive failures in total. -/
def sixFailuresTrace : List Event :=
  fiveFailuresTrace ++ [.timerFire, .disconnected]

/-! ## Helper lemmas on the character and string primitives -/

/-- `Char.ofNat` of a scalar value below the surrogate range keeps it. -/
theorem char_toNat_ofNat_valid {n : Nat} (h : n < 0xd800) : (Char.ofNat n).toNat = n := by
  have hv : n.isValidChar := Or.inl h
  simp only [Char.ofNat, hv, dif_pos]
  simp only [Char.ofNatAux, Char.toNat, UInt32.ofNat', BitVec.ofNatLt]
  rfl

/-- The scalar value of `Char.toLower`. -/
theorem toNat_toLower (c : Char) :
    c.toLower.toNat = if 65 ≤ c.toNat ∧ c.toNat ≤ 90 then c.toNat + 32 else c.toNat := by
  unfold Char.toLower
  split
  · next h =>
    rw [if_pos ⟨h.1, h.2⟩]
    exact char_toNat_ofNat_valid (by omega)
  · next h =>
    rw [if_neg h]

/-- `Char.toLower` is idempotent. -/
theorem toLower_toLower (c : Char) : c.toLower.toLower = c.toLower := by
  have h1 := toNat_toLower c
  have h2 := toNat_toLower c.toLower
  have : c.toLower.toLower.toNat = c.toLower.toNat := by
    rw [h2, h1]
    by_cases h : 65 ≤ c.toNat ∧ c.toNat ≤ 90
    · rw [if_pos h, if_neg (by omega)]
    · rw [if_neg h, if_neg h]
  exact Char.ext (UInt32.toNat.inj this)

/-- A character whose scalar value avoids the four whitespace values is
not whitespace. -/
theorem not_whitespace_of_toNat {c : Char} (h32 : c.toNat ≠ 32) (h9 : c.toNat ≠ 9)
    (h13 : c.toNat ≠ 13) (h10 : c.toNat ≠ 10) : c.isWhitespace = false := by
  simp only [Char.isWhitespace, Bool.or_eq_false_iff, decide_eq_false_iff_not]
  refine ⟨⟨⟨fun hc => h32 (by rw [hc]; decide), fun hc => h9 (by rw [hc]; decide)⟩,
    fun hc => h13 (by rw [hc]; decide)⟩, fun hc => h10 (by rw [hc]; decide)⟩

/-- Lowercasing does not change whether a character is whitespace. -/
theorem isWhitespace_toLower (c : Char) : c.toLower.isWhitespace = c.isWhitespace := by
  have h1 := toNat_toLower c
  by_cases h : 65 ≤ c.toNat ∧ c.toNat ≤ 90
  · rw [if_pos h] at h1
    rw [not_whitespace_of_toNat (c := c) (by omega) (by omega) (by omega) (by omega),
      not_whitespace_of_toNat (c := c.toLower) (by omega) (by omega) (by omega) (by omega)]
  · rw [if_neg h] at h1
    rw [Char.ext (UInt32.toNat.inj h1)]

/-- `jsToLower` is idempotent. -/
theorem jsToLower_jsToLower (s : String) : jsToLower (jsToLower s) = jsToLower s := by
  simp only [jsToLower, List.map_map]
  congr 1
  exact List.map_congr_left fun c _ => toLower_toLower c

/-- `jsToLower` commutes with `jsTrim`. -/
theorem jsToLower_jsTrim (s : String) : jsToLower (jsTrim s) = jsTrim (jsToLower s) := by
  have hcomp : (Char.isWhitespace ∘ Char.toLower) = Char.isWhitespace := by
    funext c
    exact isWhitespace_toLower c
  have hmapdrop : ∀ l : List Char,
      (l.map Char.toLower).dropWhile Char.isWhitespace =
        (l.dropWhile Char.isWhitespace).map Char.toLower := by
    intro l
    rw [List.dropWhile_map, hcomp]
  simp only [jsToLower, jsTrim]
  congr 1
  rw [hmapdrop, ← List.map_reverse, hmapdrop, List.map_reverse]

/-- If `dropWhile` leaves a concatenation unchanged, it leaves the left
part unchanged. -/
theorem dropWhile_concat_eq_self {α : Type} {p : α → Bool} {l t : List α}
    (h : (l ++ t).dropWhile p = l ++ t) : l.dropWhile p = l := by
  cases l with
  | nil => rfl
  | cons a l2 =>
    by_cases hp : p a
    · rw [List.cons_append, List.dropWhile_cons_of_pos hp] at h
      have hle := (List.dropWhile_sublist (l := l2 ++ t) p).length_le
      have hlen := congrArg List.length h
      simp [List.length_append] at hle hlen
      omega
    · rw [List.dropWhile_cons_of_neg hp]

/-- Stripping a leading run and then a trailing run of `p`-elements is
idempotent. -/
theorem trimList_idem {α : Type} (p : α → Bool) (l : List α) :
    ((((((l.dropWhile p).reverse.dropWhile p).reverse).dropWhile p).reverse.dropWhile p)).reverse =
      ((l.dropWhile p).reverse.dropWhile p).reverse := by
  obtain ⟨t, ht⟩ :
      ∃ t, t ++ (l.dropWhile p).reverse.dropWhile p = (l.dropWhile p).reverse :=
    List.dropWhile_suffix p
  have hBA : ((l.dropWhile p).reverse.dropWhile p).reverse ++ t.reverse = l.dropWhile p := by
    have := congrArg List.reverse ht
    simpa using this
  have hfront :
      (((l.dropWhile p).reverse.dropWhile p).reverse).dropWhile p =
        ((l.dropWhile p).reverse.dropWhile p).reverse := by
    apply dropWhile_concat_eq_self (t := t.reverse)
    rw [hBA]
    exact List.dropWhile_idempotent p l
  rw [hfront, List.reverse_reverse, List.dropWhile_idempotent]

/-- `jsTrim` is idempotent. -/
theorem jsTrim_jsTrim (s : String) : jsTrim (jsTrim s) = jsTrim s := by
  simp only [jsTrim]
  congr 1
  exact trimList_idem Char.isWhitespace s.data

/-- `canonicalize` is idempotent: its outputs are fixed points. -/
theorem canonicalize_canonicalize (s : String) :
    canonicalize (canonicalize s) = canonicalize s := by
  simp only [canonicalize]
  rw [jsToLower_jsTrim, jsToLower_jsToLower, jsTrim_jsTrim]

/-- Every address `parseEmailString` returns is a `canonicalize` image. -/
theorem parseEmailString_canonical {s r : String} (h : parseEmailString s = some r) :
    ∃ x, r = canonicalize x := by
  unfold parseEmailString at h
  split at h
  · exact absurd h (by simp)
  · split at h
    · exact ⟨_, (Option.some.inj h).symm⟩
    · exact ⟨_, (Option.some.inj h).symm⟩

/-- Every address `extractEmailAddress` returns is a `canonicalize`
image, hence a fixed point of `canonicalize`. -/
theorem extractEmailAddress_canonical {d : EmailData} {r : String}
    (h : extractEmailAddress d = some r) : canonicalize r = r := by
  have himg : ∃ x, r = canonicalize x := by
    cases d with
    | nullData => exact absurd h (by simp [extractEmailAddress])
    | strData s => exact parseEmailString_canonical h
    | objData a =>
      cases a with
      | none => exact absurd h (by simp [extractEmailAddress])
      | some a =>
        simp only [extractEmailAddress] at h
        split at h
        · exact absurd h (by simp)
        · exact ⟨_, (Option.some.inj h).symm⟩
    | objBadData => exact absurd h (by simp [extractEmailAddress])
    | otherData => exact absurd h (by simp [extractEmailAddress])
    | arrData items =>
      cases items with
      | nil => exact absurd h (by simp [extractEmailAddress])
      | cons first rest =>
        cases first with
        | strData s => exact parseEmailString_canonical h
        | objData a =>
          cases a with
          | none => exact absurd h (by simp [extractEmailAddress])
          | some a =>
            simp only [extractEmailAddress] at h
            split at h
            · exact absurd h (by simp)
            · exact ⟨_, (Option.some.inj h).symm⟩
        | nullData => exact absurd h (by simp [extractEmailAddress])
        | objBadData => exact absurd h (by simp [extractEmailAddress])
        | otherData => exact absurd h (by simp [extractEmailAddress])
        | arrData more => exact absurd h (by simp [extractEmailAddress])
  obtain ⟨x, hx⟩ := himg
  rw [hx, canonicalize_canonicalize]

/-! ## Helper lemmas on the pipeline -/

/-- When the sender address cannot be extracted, `handleNewEmail` is a
no-effect skip. -/
theorem handleNewEmail_extract_none {ue p : List String} {store : Store} {mail : Mail}
    (h : extractEmailAddress mail.fromField = none) :
    handleNewEmail ue p store mail = ⟨p, [], 0⟩ := by
  unfold handleNewEmail
  split
  · rfl
  · rw [h]

/-- When the extracted sender address is not in the directory cache,
`handleNewEmail` is a no-effect skip. -/
theorem handleNewEmail_not_cached {ue p : List String} {store : Store} {mail : Mail}
    {se : String} (hE : extractEmailAddress mail.fromField = some se)
    (hHas : setHas ue (jsToLower se) = false) :
    handleNewEmail ue p store mail = ⟨p, [], 0⟩ := by
  unfold handleNewEmail
  split
  · rfl
  · rw [hE]
    simp [hHas]

/-- With no message identifier, the dedup set is never consulted and
never extended: the result is the same for any prior dedup set, with the
dedup set passed through unchanged. -/
theorem handleNewEmail_mid_none {ue p q : List String} {store : Store} {mail : Mail}
    (hm : mail.messageId = none) :
    handleNewEmail ue p store mail =
      ⟨p, (handleNewEmail ue q store mail).records,
        (handleNewEmail ue q store mail).audits⟩ := by
  unfold handleNewEmail
  rw [hm]
  simp only [midTruthy, Bool.false_eq_true, false_and, if_false]
  cases hE : extractEmailAddress mail.fromField with
  | none => rfl
  | some se =>
    by_cases hHas : setHas ue (jsToLower se) = true
    · simp only [hHas, not_true_eq_false, if_false]
      cases hU : store.userByEmail se with
      | none => simp
      | some sender =>
        cases hT : extractEmailAddress mail.toField with
        | none => simp
        | some re =>
          cases hF : findSystemUser store re with
          | none =>
            cases hD : store.defaultAdmin with
            | none => simp [hF, hD]
            | some admin => simp [hF, hD]
          | some recipient => simp [hF]
    · simp [hHas]

/-! ## Claim theorems -/

/-- C1: the claim asserts that every pipeline path that persists a record
also records the message identifier in the dedup set, so a redelivery is
discarded. On the fallback-admin path the code returns right after
persisting, before the dedup record, so redelivering the same message id
persists a second record: the first processing leaves the dedup set
empty, and the second processing persists again. -/
theorem c1_fallback_redelivery_persists_twice :
    (handleNewEmail aliceCache [] fallbackStore fallbackMail).records.length = 1
    ∧ (handleNewEmail aliceCache [] fallbackStore fallbackMail).processed = []
    ∧ (handleNewEmail aliceCache
        (handleNewEmail aliceCache [] fallbackStore fallbackMail).processed
        fallbackStore fallbackMail).records.length = 1 := by
  exact ⟨by decide, by decide, by decide⟩

/-- C2 counterexample: the claim asserts that a pending reconnect timer
is cancelled by `stop()` and no reconnect fires afterwards. In the model,
after connect, disconnect (which schedules a retry timer) and a
deliberate `stop()`, the timer is still pending, and when it fires it
reopens a connection with no explicit `start()` call. -/
theorem c2_stop_pending_timer_fires_counterexample :
    (runTrace initialWorker stopWithPendingTimerTrace).pendingTimers = 1
    ∧ (runTrace initialWorker stopWithPendingTimerTrace).isRunning = false
    ∧ (step (runTrace initialWorker stopWithPendingTimerTrace) .timerFire).currentOpen = true
    ∧ (step (runTrace initialWorker stopWithPendingTimerTrace) .timerFire).openConnections = 1 := by
  decide

/-- C2 amended: `stop()` cancels no reconnect timer; every timer pending
at `stop()` time stays pending, and because `stop()` clears the running
flag, the timer callback calls `start()` and reopens a connection. -/
theorem c2_stop_does_not_cancel_timers :
    ∀ s : WorkerState, s.hasListener = true → 0 < s.pendingTimers →
      (stopService s).pendingTimers = s.pendingTimers
      ∧ (stopService s).isRunning = false
      ∧ (step (stopService s) .timerFire).currentOpen = true := by
  intro s hL hT
  refine ⟨?_, ?_, ?_⟩ <;> simp [stopService, hL, step, startService, hT]

/-- Witness for C2 amended at a concrete worker state. -/
theorem c2_stop_does_not_cancel_timers_witness :
    (stopService ⟨false, 1, 5, 1, true, false, 0⟩).pendingTimers =
      (⟨false, 1, 5, 1, true, false, 0⟩ : WorkerState).pendingTimers
    ∧ (stopService ⟨false, 1, 5, 1, true, false, 0⟩).isRunning = false
    ∧ (step (stopService ⟨false, 1, 5, 1, true, false, 0⟩) .timerFire).currentOpen = true :=
  c2_stop_does_not_cancel_timers ⟨false, 1, 5, 1, true, false, 0⟩ rfl (by decide)

/-- C3 counterexample: the claim asserts `start()` is a no-op while
running, keeping exactly one mailbox connection open. Starting,
connecting, then calling `start()` again leaves two open connections. -/
theorem c3_second_start_opens_second_connection :
    (runTrace initialWorker doubleStartTrace).openConnections = 2
    ∧ (runTrace initialWorker [.startCall, .connected]).isRunning = true
    ∧ (runTrace initialWorker [.startCall, .connected]).openConnections = 1 := by
  decide

/-- C3 amended: `start()` has no already-running guard; whenever the
current listener is open, a further `start()` creates and starts another
listener, so the number of open connections grows by one. -/
theorem c3_start_adds_connection_when_open :
    ∀ s : WorkerState, s.currentOpen = true →
      (startService s).openConnections = s.openConnections + 1 := by
  intro s h
  simp [startService, WorkerState.openConnections, h]

/-- Witness for C3 amended at a concrete worker state. -/
theorem c3_start_adds_connection_when_open_witness :
    (startService ⟨true, 0, 5, 0, true, true, 0⟩).openConnections =
      (⟨true, 0, 5, 0, true, true, 0⟩ : WorkerState).openConnections + 1 :=
  c3_start_adds_connection_when_open ⟨true, 0, 5, 0, true, true, 0⟩ rfl

/-- C4 counterexample: the claim asserts that exactly N = 5 consecutive
connection failures reach the terminal state with no further retry
scheduled. After exactly five consecutive failures the attempt counter
is 5 but a retry timer is still scheduled, because `handleReconnect`
compares the counter to the maximum before incrementing it. -/
theorem c4_five_failures_still_schedule_retry :
    (runTrace initialWorker fiveFailuresTrace).reconnectAttempts = 5
    ∧ (runTrace initialWorker fiveFailuresTrace).maxReconnectAttempts = 5
    ∧ (runTrace initialWorker fiveFailuresTrace).pendingTimers = 1 := by
  decide

/-- C4 amended: it takes N + 1 = 6 consecutive failures to reach the
state with the counter at the maximum and no retry scheduled; at or
above the maximum `handleReconnect` schedules nothing, and a single
`server:connected` event resets the counter to 0. -/
theorem c4_terminal_after_max_plus_one_failures :
    ((runTrace initialWorker sixFailuresTrace).reconnectAttempts = 5
      ∧ (runTrace initialWorker sixFailuresTrace).pendingTimers = 0
      ∧ (runTrace initialWorker sixFailuresTrace).isRunning = false)
    ∧ (∀ s : WorkerState, s.maxReconnectAttempts ≤ s.reconnectAttempts →
        handleReconnect s = s)
    ∧ (∀ s : WorkerState, (step s .connected).reconnectAttempts = 0) := by
  refine ⟨by decide, ?_, fun s => rfl⟩
  intro s h
  simp [handleReconnect, h]

/-- Witness for C4 amended at a concrete worker state. -/
theorem c4_terminal_after_max_plus_one_failures_witness :
    handleReconnect ⟨false, 5, 5, 0, true, false, 0⟩ = ⟨false, 5, 5, 0, true, false, 0⟩ :=
  c4_terminal_after_max_plus_one_failures.2.1 ⟨false, 5, 5, 0, true, false, 0⟩ (by decide)

/-- C5: a message whose extracted sender address is not in the directory
cache is discarded with no persisted record, no audit event and an
untouched dedup set; the outcome does not depend on the store at all,
so no store access can have mattered. -/
theorem c5_unknown_sender_discarded :
    ∀ (ue p : List String) (store store2 : Store) (mail : Mail) (se : String),
      extractEmailAddress mail.fromField = some se →
      setHas ue (jsToLower se) = false →
      handleNewEmail ue p store mail = ⟨p, [], 0⟩
      ∧ handleNewEmail ue p store mail = handleNewEmail ue p store2 mail := by
  intro ue p store store2 mail se hE hHas
  have h1 := @handleNewEmail_not_cached ue p store mail se hE hHas
  have h2 := @handleNewEmail_not_cached ue p store2 mail se hE hHas
  exact ⟨h1, h1.trans h2.symm⟩

/-- Witness for C5: `spam@unknown.com` against a cache holding only
Alice. -/
theorem c5_unknown_sender_discarded_witness :
    handleNewEmail aliceCache [] fallbackStore spamMail = ⟨[], [], 0⟩
    ∧ handleNewEmail aliceCache [] fallbackStore spamMail =
        handleNewEmail aliceCache [] emptyStore spamMail :=
  c5_unknown_sender_discarded aliceCache [] fallbackStore emptyStore spamMail
    "spam@unknown.com" (by decide) (by decide)

/-- C6: the address resolver handles every supported shape: the bracketed
example resolves to the lowercased bracketed address, only the first
element of a list is considered, empty or missing fields fail with no
address, and every successful output is canonical (a fixed point of
lowercase-and-trim). -/
theorem c6_address_resolver_shapes :
    extractEmailAddress (.strData "Jane <JANE@Example.com>") = some "jane@example.com"
    ∧ (∀ (first : EmailData) (rest : List EmailData),
        extractEmailAddress (.arrData (first :: rest)) =
          extractEmailAddress (.arrData [first]))
    ∧ extractEmailAddress (.arrData []) = none
    ∧ extractEmailAddress .nullData = none
    ∧ (∀ (d : EmailData) (r : String), extractEmailAddress d = some r →
        canonicalize r = r) := by
  refine ⟨by decide, ?_, by decide, by decide, ?_⟩
  · intro first rest
    rfl
  · intro d r h
    exact extractEmailAddress_canonical h

/-- Witness for C6: the canonicality conjunct applied to the bracketed
example. -/
theorem c6_address_resolver_shapes_witness :
    canonicalize "jane@example.com" = "jane@example.com" :=
  c6_address_resolver_shapes.2.2.2.2 (.strData "Jane <JANE@Example.com>")
    "jane@example.com" (by decide)

/-- C7: after a successful refresh, an address is in the cache exactly
when it is the lowercase form of an address returned by the query, and
the new cache does not depend on the prior one: the refresh replaces,
never merges. -/
theorem c7_refresh_replaces_wholesale :
    ∀ (current users : List String) (a : String),
      (setHas (loadUserEmails current (some users)) a = true ↔
        ∃ e ∈ users, jsToLower e = a)
      ∧ loadUserEmails current (some users) = loadUserEmails [] (some users) := by
  intro current users a
  refine ⟨?_, rfl⟩
  simp [setHas, loadUserEmails]

/-- C8: the address resolver is total — for every input shape it returns
either a canonical address or the no-address failure — and when it fails
on the sender field the caller skips the message with no effects instead
of crashing. -/
theorem c8_resolver_totality_and_skip :
    (∀ d : EmailData, extractEmailAddress d = none ∨
      ∃ r, extractEmailAddress d = some r ∧ canonicalize r = r)
    ∧ (∀ (ue p : List String) (store : Store) (mail : Mail),
        extractEmailAddress mail.fromField = none →
        handleNewEmail ue p store mail = ⟨p, [], 0⟩) := by
  constructor
  · intro d
    cases h : extractEmailAddress d with
    | none => exact Or.inl rfl
    | some r => exact Or.inr ⟨r, rfl, extractEmailAddress_canonical h⟩
  · intro ue p store mail h
    exact handleNewEmail_extract_none h

/-- Witness for C8: a mail with an absent sender field is skipped with
no effects. -/
theorem c8_resolver_totality_and_skip_witness :
    handleNewEmail [] [] emptyStore noSenderMail = ⟨[], [], 0⟩ :=
  c8_resolver_totality_and_skip.2 [] [] emptyStore noSenderMail (by decide)

/-- C9: a message with no message identifier is never deduplicated: the
dedup check passes whatever the dedup set holds (the records and audit
events do not depend on it), and the dedup set is left unchanged. -/
theorem c9_no_id_not_deduplicated :
    ∀ (ue p q : List String) (store : Store) (mail : Mail),
      mail.messageId = none →
      (handleNewEmail ue p store mail).processed = p
      ∧ (handleNewEmail ue p store mail).records =
          (handleNewEmail ue q store mail).records
      ∧ (handleNewEmail ue p store mail).audits =
          (handleNewEmail ue q store mail).audits := by
  intro ue p q store mail hm
  rw [handleNewEmail_mid_none (q := q) hm]
  exact ⟨rfl, rfl, rfl⟩

/-- Witness for C9: a no-id mail processed against a non-empty dedup
set. -/
theorem c9_no_id_not_deduplicated_witness :
    (handleNewEmail aliceCache ["x"] fallbackStore noIdMail).processed = ["x"]
    ∧ (handleNewEmail aliceCache ["x"] fallbackStore noIdMail).records =
        (handleNewEmail aliceCache [] fallbackStore noIdMail).records
    ∧ (handleNewEmail aliceCache ["x"] fallbackStore noIdMail).audits =
        (handleNewEmail aliceCache [] fallbackStore noIdMail).audits :=
  c9_no_id_not_deduplicated aliceCache ["x"] [] fallbackStore noIdMail rfl

/-- C10: a failed store query during refresh leaves the previously
loaded cache intact, so membership checks behave exactly as before. -/
theorem c10_failed_refresh_keeps_cache :
    ∀ current : List String, loadUserEmails current none = current
      ∧ ∀ a, setHas (loadUserEmails current none) a = setHas current a := by
  intro current
  exact ⟨rfl, fun a => rfl⟩

end EmailListener
